import Mathlib

/-!
# Verification of the research-blog aggregation engine

Shallow embedding of the multi-source extraction / pagination / caching
engine of the `research_blogs` repository, together with proofs of the
spec's testable properties.

The embedding follows these source files:
* `src/lib/cache.ts` (in-memory `Map`-based variant): cached posts,
  timestamps, `appendCachedPosts`, `shouldRefresh`;
* `src/unnamed/part_011` (`/api/fetch` route, merge-based variant): the
  orchestration step that merges freshly fetched pages into the cache;
* `src/lib/custom-scrapers.ts`: `retry`, `fetchUrl`, structured-data
  (JSON-LD) extraction, RSS feed processing, `fetchFromHtml`, and the
  strategy dispatch in `fetchPostsFromSource`.

JavaScript `Map`s are modelled as association lists, JS string falsiness
(`""`/`undefined` are falsy) is modelled explicitly, and network calls are
modelled by oracles (`Nat → FetchOutcome`, `String → Option DetailPage`)
supplied as parameters, so every definition is executable.
-/

namespace ResearchBlogs

/-- The canonical normalized post record (`Post` in `src/types`, restricted
to the fields that the embedded functions read or write). -/
structure Post where
  id : String
  sourceId : String
  title : String
  url : String
  author : Option String := none
  publishedAt : Option String := none
  summary : Option String := none
  imageUrl : Option String := none
  rawHtml : Option String := none
  fetchedAt : String
  deriving Repr, DecidableEq

/-- Static source configuration (`Source` in `src/types`). -/
structure Source where
  id : String
  name : String
  homepage : String
  rss : Option String := none
  blogListUrl : Option String := none
  allowScrape : Bool
  deriving Repr, DecidableEq

/-- JS truthiness of an optional string: `undefined` and `""` are falsy. -/
def optTruthyStr : Option String → Bool
  | none => false
  | some s => s ≠ ""

/-! ## Association-list model of the JS `Map`s used by `src/lib/cache.ts` -/

/-- `Map.get`: first binding of the key, if any. -/
def mapGet {α : Type} (m : List (String × α)) (k : String) : Option α :=
  match m with
  | [] => none
  | (k₁, v) :: rest => if k₁ = k then some v else mapGet rest k

/-- `Map.set`: replace the binding in place, or add the key at the end. -/
def mapSet {α : Type} (m : List (String × α)) (k : String) (v : α) :
    List (String × α) :=
  match m with
  | [] => [(k, v)]
  | (k₁, v₁) :: rest =>
      if k₁ = k then (k, v) :: rest else (k₁, v₁) :: mapSet rest k v

theorem mapGet_mapSet {α : Type} (m : List (String × α)) (k : String) (v : α) :
    mapGet (mapSet m k v) k = some v := by
  induction m with
  | nil => simp [mapGet, mapSet]
  | cons hd tl ih =>
      obtain ⟨k₁, v₁⟩ := hd
      by_cases h : k₁ = k
      · simp [mapGet, mapSet, h]
      · simp [mapGet, mapSet, h, ih]

/-- The in-memory posts cache `memoryCache.posts : Map<string, Post[]>`. -/
abbrev PostsMap := List (String × List Post)

/-- `memoryCache.timestamps : Map<string, number>`. -/
abbrev TimeMap := List (String × Nat)

/-- `getCachedPosts` (src/lib/cache.ts): `memoryCache.posts.get(sourceId) || []`. -/
def getCachedPosts (m : PostsMap) (sourceId : String) : List Post :=
  (mapGet m sourceId).getD []

/-- `setCachedPosts` (src/lib/cache.ts). -/
def setCachedPosts (m : PostsMap) (sourceId : String) (posts : List Post) :
    PostsMap :=
  mapSet m sourceId posts

/-- `appendCachedPosts` (src/lib/cache.ts lines 33-43): deduplicate the new
posts against the cached URLs and append the survivors; a no-op when every
new URL is already cached. -/
def appendCachedPosts (m : PostsMap) (sourceId : String)
    (newPosts : List Post) : PostsMap :=
  let existingPosts := getCachedPosts m sourceId
  let existingUrls := existingPosts.map (fun p => p.url)
  let uniqueNewPosts := newPosts.filter (fun p => ¬ p.url ∈ existingUrls)
  if uniqueNewPosts.length > 0 then
    setCachedPosts m sourceId (existingPosts ++ uniqueNewPosts)
  else m

/-- `getLastFetchTime` (src/lib/cache.ts): `timestamps.get(sourceId) || null`;
a stored `0` is falsy in JS and therefore reads back as `null`. -/
def getLastFetchTime (m : TimeMap) (sourceId : String) : Option Nat :=
  match mapGet m sourceId with
  | some t => if t = 0 then none else some t
  | none => none

/-- `setLastFetchTime` (src/lib/cache.ts). -/
def setLastFetchTime (m : TimeMap) (sourceId : String) (timestamp : Nat) :
    TimeMap :=
  mapSet m sourceId timestamp

/-- `shouldRefresh` (src/lib/cache.ts): stale when no timestamp is recorded
or the elapsed time exceeds the refresh interval (hours → milliseconds).
`Date.now() - lastFetch` is modelled with truncated subtraction, which
agrees with JS whenever `lastFetch ≤ now`. -/
def shouldRefresh (m : TimeMap) (sourceId : String)
    (refreshIntervalHours : Nat) (now : Nat) : Bool :=
  match getLastFetchTime m sourceId with
  | none => true
  | some lastFetch =>
      decide (now - lastFetch > refreshIntervalHours * 60 * 60 * 1000)

/-! ## Orchestration: the cache-update step of the `/api/fetch` route
(`src/unnamed/part_011`, GET handler) -/

/-- Whole cache state owned by the orchestration layer. -/
structure CacheState where
  posts : PostsMap
  timestamps : TimeMap
  deriving Repr, DecidableEq

/-- `shouldFetch` condition of the GET handler (src/unnamed/part_011):
`(page === 1 && (needsRefresh || isCacheEmpty)) || (page > 1)`. -/
def shouldFetch (page : Nat) (needsRefresh isCacheEmpty : Bool) : Bool :=
  (decide (page = 1) && (needsRefresh || isCacheEmpty)) || decide (page > 1)

/-- Cache-update step of the GET handler (src/unnamed/part_011 lines
190-218), given the posts returned by `fetchPostsFromSource`: a non-empty
fetch is merged via `appendCachedPosts` (and, on page 1, the last-fetch
timestamp is set); a zero-post fetch leaves the cache untouched and, on
page 1 with a non-empty cache, answers from the existing cache. Returns
the new cache state and the posts served to the client. -/
def routeUpdateCache (st : CacheState) (cacheKey : String) (page : Nat)
    (fetchedPosts : List Post) (now : Nat) : CacheState × List Post :=
  let cached := getCachedPosts st.posts cacheKey
  if fetchedPosts.length > 0 then
    let posts₁ := appendCachedPosts st.posts cacheKey fetchedPosts
    let times₁ :=
      if page = 1 then setLastFetchTime st.timestamps cacheKey now
      else st.timestamps
    (⟨posts₁, times₁⟩, fetchedPosts)
  else
    if page = 1 ∧ cached.length > 0 then (st, cached) else (st, [])

/-! ### Basic cache lemmas -/

theorem getCachedPosts_setCachedPosts (m : PostsMap) (k : String)
    (ps : List Post) : getCachedPosts (setCachedPosts m k ps) k = ps := by
  simp [getCachedPosts, setCachedPosts, mapGet_mapSet]

theorem getCachedPosts_appendCachedPosts (m : PostsMap) (k : String)
    (newPosts : List Post) :
    getCachedPosts (appendCachedPosts m k newPosts) k =
      getCachedPosts m k ++
        newPosts.filter
          (fun p => ¬ p.url ∈ (getCachedPosts m k).map (fun q => q.url)) := by
  unfold appendCachedPosts
  by_cases h :
      (newPosts.filter
        (fun p => ¬ p.url ∈ (getCachedPosts m k).map (fun q => q.url))).length > 0
  · rw [if_pos h, getCachedPosts_setCachedPosts]
  · have hnil :
        newPosts.filter
          (fun p => ¬ p.url ∈ (getCachedPosts m k).map (fun q => q.url)) = [] :=
      List.length_eq_zero.mp (Nat.eq_zero_of_not_pos h)
    rw [if_neg h, hnil, List.append_nil]

theorem getLastFetchTime_setLastFetchTime (m : TimeMap) (k : String) (t : Nat)
    (h : 0 < t) : getLastFetchTime (setLastFetchTime m k t) k = some t := by
  unfold getLastFetchTime setLastFetchTime
  rw [mapGet_mapSet]
  simp [Nat.pos_iff_ne_zero.mp h]

theorem appendCachedPosts_all_present (m : PostsMap) (k : String)
    (P : List Post)
    (h : ∀ p ∈ P, p.url ∈ (getCachedPosts m k).map (fun q => q.url)) :
    appendCachedPosts m k P = m := by
  have hnil :
      P.filter (fun p => ¬ p.url ∈ (getCachedPosts m k).map (fun q => q.url)) = [] := by
    rw [List.filter_eq_nil_iff]
    intro p hp
    simp [h p hp]
  unfold appendCachedPosts
  dsimp only
  rw [hnil]
  simp

theorem appendCachedPosts_twice (m : PostsMap) (k : String) (P : List Post) :
    appendCachedPosts (appendCachedPosts m k P) k P = appendCachedPosts m k P := by
  apply appendCachedPosts_all_present
  intro p hp
  rw [getCachedPosts_appendCachedPosts, List.map_append, List.mem_append]
  by_cases hmem : p.url ∈ (getCachedPosts m k).map (fun q => q.url)
  · exact Or.inl hmem
  · exact Or.inr
      (List.mem_map_of_mem _ (List.mem_filter.mpr ⟨hp, by simpa using hmem⟩))

theorem routeUpdateCache_nil (st : CacheState) (key : String) (page now : Nat) :
    (routeUpdateCache st key page [] now).1 = st := by
  unfold routeUpdateCache
  by_cases h : page = 1 ∧ (getCachedPosts st.posts key).length > 0 <;> simp [h]

theorem routeUpdateCache_pos (st : CacheState) (key : String) (page now : Nat)
    (fetched : List Post) (h : fetched ≠ []) :
    (routeUpdateCache st key page fetched now).1.posts
        = appendCachedPosts st.posts key fetched
    ∧ (routeUpdateCache st key page fetched now).1.timestamps
        = (if page = 1 then setLastFetchTime st.timestamps key now
           else st.timestamps) := by
  have hlen : fetched.length > 0 := List.length_pos.mpr h
  unfold routeUpdateCache
  simp [hlen]

/-! ## Claim theorems about the cache and merge step -/

/-- Sample posts used by counterexamples and witnesses. -/
def samplePostA : Post :=
  { id := "src-a", sourceId := "src", title := "Post A",
    url := "https://example.com/a", fetchedAt := "2024-01-01T00:00:00.000Z" }

def samplePostB : Post :=
  { id := "src-b", sourceId := "src", title := "Post B",
    url := "https://example.com/b", fetchedAt := "2024-01-01T00:00:00.000Z" }

/-- Same normalized URL as `samplePostB` but a different `id` string. -/
def samplePostB' : Post :=
  { id := "src-b-dup", sourceId := "src", title := "Post B again",
    url := "https://example.com/b", fetchedAt := "2024-01-02T00:00:00.000Z" }

/-- **C2**: a refetch that returns zero posts leaves the whole cache state
unchanged, for every page and every prior cache (in particular a non-empty
cached set is never downgraded to empty; the route has no overwrite-forcing
path on a zero-post fetch). From src/unnamed/part_011 lines 197-218. -/
theorem zeroPostRefetch_preserves_cache (st : CacheState) (key : String)
    (page now : Nat) : (routeUpdateCache st key page [] now).1 = st :=
  routeUpdateCache_nil st key page now

/-- **C10**: `appendCachedPosts` is idempotent — appending the same batch
twice equals appending it once — and appending a batch whose URLs are all
already cached leaves the cache completely unchanged. -/
theorem appendCachedPosts_idempotent (m : PostsMap) (k : String)
    (P : List Post) :
    appendCachedPosts (appendCachedPosts m k P) k P = appendCachedPosts m k P
    ∧ ((∀ p ∈ P, p.url ∈ (getCachedPosts m k).map (fun q => q.url)) →
        appendCachedPosts m k P = m) :=
  ⟨appendCachedPosts_twice m k P, appendCachedPosts_all_present m k P⟩

/-- Witness for `appendCachedPosts_idempotent` at concrete inputs. -/
theorem appendCachedPosts_idempotent_witness :
    appendCachedPosts (appendCachedPosts [] "src" [samplePostA]) "src"
        [samplePostA] = appendCachedPosts [] "src" [samplePostA]
    ∧ appendCachedPosts [("src", [samplePostA])] "src" [samplePostA]
        = [("src", [samplePostA])] :=
  ⟨(appendCachedPosts_idempotent [] "src" [samplePostA]).1,
   (appendCachedPosts_idempotent [("src", [samplePostA])] "src"
      [samplePostA]).2 (by decide)⟩

/-- **C3 counterexample**: merging a fetch result that itself contains two
posts with the same URL (but different ids) produces a cached set with a
duplicated URL — `appendCachedPosts` dedups the new batch against the cache
but not within the batch. -/
theorem mergeDedup_counterexample :
    ¬ ((getCachedPosts
          (appendCachedPosts (appendCachedPosts [] "src" [samplePostA]) "src"
            [samplePostB, samplePostB']) "src").map (fun p => p.url)).Nodup := by
  decide

/-- **C3** (amended): provided each fetch result is internally free of
duplicate URLs, merging a later fetch result into the accumulated cached set
never produces two posts with equal URL; the dedup key is the URL, not the
id. -/
theorem appendCachedPosts_nodup (m : PostsMap) (k : String) (P : List Post)
    (hm : ((getCachedPosts m k).map (fun p => p.url)).Nodup)
    (hP : (P.map (fun p => p.url)).Nodup) :
    ((getCachedPosts (appendCachedPosts m k P) k).map
        (fun p => p.url)).Nodup := by
  rw [getCachedPosts_appendCachedPosts, List.map_append, List.nodup_append]
  refine ⟨hm, ?_, ?_⟩
  · exact List.Nodup.sublist ((List.filter_sublist P).map _) hP
  · intro u hu hu'
    obtain ⟨p, hp, rfl⟩ := List.mem_map.mp hu'
    have hpf := (List.mem_filter.mp hp).2
    obtain ⟨q, hq, hqu⟩ := List.mem_map.mp hu
    simp at hpf
    exact hpf q hq hqu

/-- Witness for `appendCachedPosts_nodup`: merging a second fetch result
with a fresh URL (and no internal duplicates) keeps the cached URLs
duplicate-free. -/
theorem appendCachedPosts_nodup_witness :
    ((getCachedPosts
        (appendCachedPosts [("src", [samplePostA])] "src"
          [samplePostB, samplePostA]) "src").map (fun p => p.url)).Nodup :=
  appendCachedPosts_nodup [("src", [samplePostA])] "src"
    [samplePostB, samplePostA] (by decide) (by decide)

/-- **C1 counterexample**: a page-1 request on an `Empty` source (no cached
posts, no timestamp) whose refetch returns zero posts leaves the last-fetch
timestamp unset — the claim's unconditional "the last-fetch timestamp is
updated" fails on the code. -/
theorem pageOneZeroFetch_timestamp_counterexample :
    getCachedPosts (CacheState.mk [] []).posts "k" = []
    ∧ (routeUpdateCache ⟨[], []⟩ "k" 1 [] 42).1 = ⟨[], []⟩
    ∧ getLastFetchTime (routeUpdateCache ⟨[], []⟩ "k" 1 [] 42).1.timestamps "k"
        = none := by
  decide

/-- **C1** (amended): on a page-1 request while `Stale` or `Empty` the route
does refetch, every previously cached post survives the merge, and, when the
fetch returned at least one post, the last-fetch timestamp is set to the
fetch time; a zero-post fetch leaves the whole cache state (posts and
timestamp) unchanged. -/
theorem pageOneRefetchMerge (st : CacheState) (key : String)
    (fetched : List Post) (now : Nat)
    (hstale : shouldRefresh st.timestamps key 6 now = true
      ∨ getCachedPosts st.posts key = [])
    (hnow : 0 < now) :
    shouldFetch 1 (shouldRefresh st.timestamps key 6 now)
        (decide ((getCachedPosts st.posts key).length = 0)) = true
    ∧ (∀ p ∈ getCachedPosts st.posts key,
        p ∈ getCachedPosts (routeUpdateCache st key 1 fetched now).1.posts key)
    ∧ (fetched ≠ [] →
        getLastFetchTime (routeUpdateCache st key 1 fetched now).1.timestamps
          key = some now)
    ∧ (fetched = [] → (routeUpdateCache st key 1 fetched now).1 = st) := by
  refine ⟨?_, ?_, ?_, fun h => h ▸ routeUpdateCache_nil st key 1 now⟩
  · rcases hstale with h | h
    · simp [shouldFetch, h]
    · simp [shouldFetch, h]
  · intro p hp
    rcases List.eq_nil_or_concat fetched with h | h
    · rw [h, routeUpdateCache_nil]
      exact hp
    · have hne : fetched ≠ [] := by
        rcases h with ⟨l, a, rfl⟩
        simp
      rw [(routeUpdateCache_pos st key 1 now fetched hne).1,
        getCachedPosts_appendCachedPosts]
      exact List.mem_append_left _ hp
  · intro hne
    rw [(routeUpdateCache_pos st key 1 now fetched hne).2]
    simp [getLastFetchTime_setLastFetchTime st.timestamps key now hnow]

/-- Witness for `pageOneRefetchMerge` on an `Empty` source with a
single-post fetch result. -/
theorem pageOneRefetchMerge_witness :
    shouldFetch 1 (shouldRefresh (CacheState.mk [] []).timestamps "k" 6 42)
        (decide ((getCachedPosts (CacheState.mk [] []).posts "k").length = 0))
        = true
    ∧ (∀ p ∈ getCachedPosts (CacheState.mk [] []).posts "k",
        p ∈ getCachedPosts
          (routeUpdateCache ⟨[], []⟩ "k" 1 [samplePostA] 42).1.posts "k")
    ∧ ([samplePostA] ≠ ([] : List Post) →
        getLastFetchTime
          (routeUpdateCache ⟨[], []⟩ "k" 1 [samplePostA] 42).1.timestamps "k"
          = some 42)
    ∧ ([samplePostA] = ([] : List Post) →
        (routeUpdateCache ⟨[], []⟩ "k" 1 [samplePostA] 42).1 = ⟨[], []⟩) :=
  pageOneRefetchMerge ⟨[], []⟩ "k" [samplePostA] 42 (Or.inr (by decide))
    (by decide)

/-! ## Structurally recursive character-list string helpers

The iterator-based `String` functions of the core library are defined by
well-founded recursion, which the kernel cannot evaluate; these helpers
compute the same operations by structural recursion on the character list
so that concrete witnesses can be checked by `decide`/`rfl`. -/

def chars (s : String) : List Char := s.data

def ofChars (cs : List Char) : String := ⟨cs⟩

def isPrefixChars : List Char → List Char → Bool
  | [], _ => true
  | _ :: _, [] => false
  | c :: cs, d :: ds => c == d && isPrefixChars cs ds

/-- `s.startsWith p`. -/
def strStartsWith (s p : String) : Bool := isPrefixChars (chars p) (chars s)

/-- `s.slice(n)` / Lean `String.drop`. -/
def strDrop (s : String) (n : Nat) : String := ofChars ((chars s).drop n)

/-- `s.substring(0, n)` / Lean `String.take`. -/
def strTake (s : String) (n : Nat) : String := ofChars ((chars s).take n)

def strTakeWhile (s : String) (p : Char → Bool) : String :=
  ofChars ((chars s).takeWhile p)

def strLength (s : String) : Nat := (chars s).length

/-- `s.split(sep)` for a one-character separator. -/
def splitOnChar (sep : Char) : List Char → List (List Char)
  | [] => [[]]
  | c :: rest =>
      let r := splitOnChar sep rest
      if c == sep then [] :: r
      else
        match r with
        | [] => [[c]]
        | g :: gs => (c :: g) :: gs

/-- `groups.join(sep)` for a one-character separator. -/
def intercalateChar (sep : Char) : List (List Char) → List Char
  | [] => []
  | [g] => g
  | g :: gs => g ++ sep :: intercalateChar sep gs

/-- The suffix of the haystack after the first occurrence of `pat`. -/
def afterFirst (pat : List Char) : List Char → Option (List Char)
  | [] => none
  | c :: rest =>
      if isPrefixChars pat (c :: rest) then some ((c :: rest).drop pat.length)
      else afterFirst pat rest

/-! ## A minimal model of WHATWG `new URL` for http(s) URLs

Used for `new URL(x).pathname`, `new URL(x, base).toString()` and the
slug-based post ids. The model covers scheme/host/path splitting and
relative-reference resolution against a base; it ignores host
normalization, default ports and `..` segments, which none of the
embedded call sites rely on. A URL that does not start with `http://` or
`https://` is treated as unparsable (`new URL` throws). -/

def splitScheme (s : String) : Option (String × String) :=
  if strStartsWith s "http://" then some ("http://", strDrop s 7)
  else if strStartsWith s "https://" then some ("https://", strDrop s 8)
  else none

/-- Split an absolute URL into `(scheme, host, pathQueryFragment)`;
`pathQueryFragment` starts with `/` or is empty. -/
def urlParts (s : String) : Option (String × String × String) :=
  match splitScheme s with
  | none => none
  | some (scheme, rest) =>
      if rest = "" then none
      else
        let host := strTakeWhile rest (fun c => c != '/')
        some (scheme, host, strDrop rest (strLength host))

/-- `new URL(s).toString()`: an empty path serializes as `/`. -/
def urlToString (s : String) : Option String :=
  (urlParts s).map (fun q =>
    q.1 ++ q.2.1 ++ (if q.2.2 = "" then "/" else q.2.2))

/-- `new URL(s).pathname`: the path component, `/` when empty. -/
def urlPathname (s : String) : Option String :=
  (urlParts s).map (fun q =>
    let p := strTakeWhile q.2.2 (fun c => c != '?' && c != '#')
    if p = "" then "/" else p)

/-- Directory of a path: everything up to and including the last `/`. -/
def dirOf (p : String) : String :=
  ofChars (intercalateChar '/' (splitOnChar '/' (chars p)).dropLast) ++ "/"

/-- `new URL(u, base).toString()`: absolute `u` is normalized as-is, a
root-relative `u` is resolved against the base origin, any other `u`
against the base directory; fails (throws) when both are unparsable. -/
def resolveUrl (u base : String) : Option String :=
  match urlParts u with
  | some _ => urlToString u
  | none =>
      match urlParts base with
      | none => none
      | some (scheme, host, basePath) =>
          if strStartsWith u "/" then some (scheme ++ host ++ u)
          else some (scheme ++ host ++ dirOf basePath ++ u)

/-- `urlPath.split('/').filter(Boolean).join('-') || 'post'`. -/
def slugOfPath (p : String) : String :=
  let segs := (splitOnChar '/' (chars p)).filter (fun seg => seg ≠ [])
  let s := ofChars (intercalateChar '-' segs)
  if s = "" then "post" else s

/-- Post id used by `processRssFeed` (src/lib/custom-scrapers.ts lines
2980-2989): slug of `new URL(link).pathname`, falling back to the raw link
when the link is not a parsable URL, prefixed with the source id. -/
def rssPostId (sourceId link : String) : String :=
  sourceId ++ "-" ++ slugOfPath ((urlPathname link).getD link)

/-! ## RSS/Atom feed processing (`parseRssWithCheerio` output shape and
`processRssFeed`, src/lib/custom-scrapers.ts lines 2971-3039) -/

/-- One item as produced by `parseRssWithCheerio`: text fields default to
`""` when the element is missing (cheerio `.text()` on no match), attribute
lookups to `undefined` (`none`). `link` is `text || attr(href)`. -/
structure RssItem where
  title : String := ""
  link : Option String := none
  pubDate : String := ""
  author : String := ""
  content : String := ""
  contentSnippet : String := ""
  mediaThumbnailUrl : Option String := none
  mediaContentUrl : Option String := none
  mediaContentMedium : Option String := none
  enclosureUrl : Option String := none
  enclosureType : Option String := none
  deriving Repr, DecidableEq

structure RssFeed where
  items : List RssItem
  deriving Repr, DecidableEq

/-- Models `cheerio.load(content); $(img).first().attr(src)`: the `src`
attribute of the first `img` tag in an HTML fragment. -/
def firstImgSrc (html : String) : Option String :=
  match afterFirst (chars "<img") (chars html) with
  | none => none
  | some afterTag =>
      let tag := afterTag.takeWhile (fun c => c != '>')
      match afterFirst (chars "src=\"") tag with
      | none => none
      | some rest => some (ofChars (rest.takeWhile (fun c => c != '"')))

/-- `post.summary`: first 200 characters of `contentSnippet || content`,
absent when both are empty. -/
def rssSummary (item : RssItem) : Option String :=
  if item.contentSnippet ≠ "" then some (strTake item.contentSnippet 200)
  else if item.content ≠ "" then some (strTake item.content 200)
  else none

/-- `post.imageUrl` resolution priority of `processRssFeed`:
media-thumbnail, then media-content of medium `image`, then enclosure of an
`image/*` type, then the first `img` in the item's inline HTML content
(resolved against the item link, falling back to the raw `src`). -/
def rssImage (item : RssItem) (link : String) : Option String :=
  if optTruthyStr item.mediaThumbnailUrl then item.mediaThumbnailUrl
  else if optTruthyStr item.mediaContentUrl
      && (item.mediaContentMedium == some "image") then item.mediaContentUrl
  else if optTruthyStr item.enclosureUrl
      && (match item.enclosureType with
          | some t => strStartsWith t "image/"
          | none => false) then item.enclosureUrl
  else
    let contentHtml :=
      if item.content ≠ "" then item.content else item.contentSnippet
    if contentHtml ≠ "" then
      match firstImgSrc contentHtml with
      | some src => some ((resolveUrl src link).getD src)
      | none => none
    else none

/-- One iteration of the `processRssFeed` loop: items with a missing/empty
`link` or `title` are skipped (`continue`), the rest become a `Post`. -/
def processRssItem (sourceId now : String) (item : RssItem) : Option Post :=
  match item.link with
  | none => none
  | some link =>
      if link = "" ∨ item.title = "" then none
      else
        some { id := rssPostId sourceId link
               sourceId := sourceId
               title := item.title
               url := link
               author := if item.author = "" then none else some item.author
               publishedAt :=
                 if item.pubDate = "" then none else some item.pubDate
               summary := rssSummary item
               imageUrl := rssImage item link
               fetchedAt := now }

/-- `processRssFeed` (src/lib/custom-scrapers.ts lines 2971-3039):
`feed.items.slice(0, 70)` then the skip-or-convert loop. -/
def processRssFeed (feed : RssFeed) (sourceId now : String) : List Post :=
  (feed.items.take 70).filterMap (processRssItem sourceId now)

theorem processRssItem_skip (sourceId now : String) (item : RssItem)
    (h : optTruthyStr item.link = false ∨ item.title = "") :
    processRssItem sourceId now item = none := by
  unfold processRssItem
  cases hl : item.link with
  | none => rfl
  | some link =>
      rcases h with h | h
      · rw [hl] at h
        simp [optTruthyStr] at h
        simp [h]
      · simp [h]

/-- The spec's scenario feed: one item with title `Test Post 1`, link
`https://example.com/post1` and a pubDate. -/
def testFeed : RssFeed :=
  ⟨[{ title := "Test Post 1", link := some "https://example.com/post1",
      pubDate := "Mon, 01 Jan 2024 00:00:00 GMT" }]⟩

/-- **C7**: RSS processing returns at most 70 posts; an item with a
missing/empty link or title is skipped without affecting the remaining
items; the spec's one-item scenario feed yields exactly one post carrying
the item's title and link. -/
theorem processRssFeed_spec :
    (∀ (feed : RssFeed) (sourceId now : String),
        (processRssFeed feed sourceId now).length ≤ 70)
    ∧ (∀ (bad : RssItem) (rest : List RssItem) (sourceId now : String),
        (optTruthyStr bad.link = false ∨ bad.title = "") →
        rest.length ≤ 69 →
        processRssFeed ⟨bad :: rest⟩ sourceId now
          = processRssFeed ⟨rest⟩ sourceId now)
    ∧ (∀ now : String,
        processRssFeed testFeed "test-source" now
          = [{ id := "test-source-post1", sourceId := "test-source",
               title := "Test Post 1", url := "https://example.com/post1",
               publishedAt := some "Mon, 01 Jan 2024 00:00:00 GMT",
               fetchedAt := now }]) := by
  refine ⟨?_, ?_, ?_⟩
  · intro feed s now
    calc (processRssFeed feed s now).length
        ≤ (feed.items.take 70).length := List.length_filterMap_le _ _
      _ ≤ 70 := by simp [List.length_take]
  · intro bad rest s now hbad hlen
    unfold processRssFeed
    have h1 : (bad :: rest).take 70 = bad :: rest.take 69 := rfl
    have h2 : rest.take 69 = rest := List.take_of_length_le hlen
    have h3 : rest.take 70 = rest :=
      List.take_of_length_le (le_trans hlen (by norm_num))
    rw [h1, h2, h3,
      List.filterMap_cons_none (processRssItem_skip s now bad hbad)]
  · intro now
    rfl

/-- Witness for `processRssFeed_spec` at concrete feeds. -/
theorem processRssFeed_spec_witness :
    (processRssFeed testFeed "test-source" "t").length ≤ 70
    ∧ processRssFeed ⟨{ link := none } :: testFeed.items⟩ "test-source" "t"
        = processRssFeed ⟨testFeed.items⟩ "test-source" "t"
    ∧ processRssFeed testFeed "test-source" "t"
        = [{ id := "test-source-post1", sourceId := "test-source",
             title := "Test Post 1", url := "https://example.com/post1",
             publishedAt := some "Mon, 01 Jan 2024 00:00:00 GMT",
             fetchedAt := "t" }] :=
  ⟨processRssFeed_spec.1 testFeed "test-source" "t",
   processRssFeed_spec.2.1 { link := none } testFeed.items "test-source" "t"
     (Or.inl rfl) (by decide),
   processRssFeed_spec.2.2 "t"⟩

/-! ## JSON values and the JSON-LD structured-data extractor
(`extractStructuredData` / `extractPostsFromStructuredData`,
src/lib/custom-scrapers.ts lines 2645-2764) -/

inductive JsonVal where
  | str (s : String)
  | num (n : Int)
  | boolean (b : Bool)
  | null
  | arr (elems : List JsonVal)
  | obj (fields : List (String × JsonVal))

/-- JS property access `v[k]`: a field of an object, `undefined` otherwise. -/
def JsonVal.get? : JsonVal → String → Option JsonVal
  | .obj fields, k => mapGet fields k
  | _, _ => none

/-- Optional chaining `o?.[k]`. -/
def optGet (o : Option JsonVal) (k : String) : Option JsonVal :=
  match o with
  | some v => v.get? k
  | none => none

/-- JS truthiness of a JSON value. -/
def jsonTruthy : JsonVal → Bool
  | .str s => s ≠ ""
  | .num n => n != 0
  | .boolean b => b
  | .null => false
  | .arr _ => true
  | .obj _ => true

/-- JS truthiness of a possibly-`undefined` JSON value. -/
def optJsonTruthy : Option JsonVal → Bool
  | some v => jsonTruthy v
  | none => false

/-- JS `a || b` on possibly-`undefined` JSON values. -/
def jsOr (a b : Option JsonVal) : Option JsonVal :=
  if optJsonTruthy a then a else b

/-- JS `String(v)`. String conversion of arrays/objects is approximated by
a constant tag; every embedded call site receives a string in practice. -/
def jsonToString : JsonVal → String
  | .str s => s
  | .num n => toString n
  | .boolean b => if b then "true" else "false"
  | .null => "null"
  | .arr _ => "[object Array]"
  | .obj _ => "[object Object]"

/-- Models `new Date(s).toISOString()` as the identity on the date string;
no claim depends on the normalized value (and a date-parse failure, which
would skip the surrounding post, is not modelled). -/
def jsDateToIso (s : String) : String := s

/-- `v['@type'] === ty` (strict equality against a string literal). -/
def isTypeStr (v : JsonVal) (ty : String) : Bool :=
  match v.get? "@type" with
  | some (.str t) => t = ty
  | _ => false

/-- `o?.['@type'] === ty`. -/
def optIsTypeStr (o : Option JsonVal) (ty : String) : Bool :=
  match o with
  | some v => isTypeStr v ty
  | none => false

/-- `v ? String(v) : undefined`. -/
def jsOptStr (v : Option JsonVal) : Option String :=
  match v with
  | some x => if jsonTruthy x then some (jsonToString x) else none
  | none => none

/-- Post id used by the structured-data extractor: slug of the pathname of
the (already absolute) post URL, prefixed with the source id. -/
def structuredPostId (sourceId absUrl : String) : String :=
  sourceId ++ "-" ++ slugOfPath ((urlPathname absUrl).getD "")

/-- The shared `if (url && title) { try { resolve; pathname; push } catch
{ skip } }` tail of all three JSON-LD branches: requires truthy url and
title, resolves the url against the base (skipping on `new URL` failure),
and builds the post. -/
def mkStructuredPost (baseUrl sourceId now : String)
    (urlVal titleVal : Option JsonVal)
    (author publishedAt imageUrl : Option String) : Option Post :=
  if optJsonTruthy urlVal && optJsonTruthy titleVal then
    match resolveUrl (jsonToString (urlVal.getD .null)) baseUrl with
    | none => none
    | some absoluteUrl =>
        match urlPathname absoluteUrl with
        | none => none
        | some urlPath =>
            some { id := sourceId ++ "-" ++ slugOfPath urlPath
                   sourceId := sourceId
                   title := jsonToString (titleVal.getD .null)
                   url := absoluteUrl
                   author := author
                   publishedAt := publishedAt
                   imageUrl := imageUrl
                   fetchedAt := now }
  else none

/-- Branch 1 of `extractPostsFromStructuredData`: a top-level
`BlogPosting`/`Article` block. -/
def extractBlogPosting (data : JsonVal) (baseUrl sourceId now : String) :
    List Post :=
  if isTypeStr data "BlogPosting" || isTypeStr data "Article" then
    if optJsonTruthy
        (jsOr (data.get? "url") (optGet (data.get? "mainEntityOfPage") "@id"))
    then
      let url :=
        jsOr (data.get? "url")
          (jsOr (optGet (data.get? "mainEntityOfPage") "@id")
            (data.get? "mainEntityOfPage"))
      let title := jsOr (data.get? "headline") (data.get? "name")
      let publishedAt := jsOr (data.get? "datePublished") (data.get? "dateCreated")
      let author :=
        jsOr (optGet (data.get? "author") "name")
          (jsOr (optGet (data.get? "author") "@name") (data.get? "author"))
      let imageUrl :=
        jsOr (optGet (data.get? "image") "url")
          (jsOr (optGet (data.get? "image") "@url") (data.get? "image"))
      (mkStructuredPost baseUrl sourceId now url title (jsOptStr author)
        ((jsOptStr publishedAt).map jsDateToIso) (jsOptStr imageUrl)).toList
    else []
  else []

/-- One element of a `Blog`'s `blogPost` array. -/
def extractBlogItem (baseUrl sourceId now : String) (post : JsonVal) :
    Option Post :=
  if isTypeStr post "BlogPosting" || isTypeStr post "Article" then
    mkStructuredPost baseUrl sourceId now
      (jsOr (post.get? "url") (optGet (post.get? "mainEntityOfPage") "@id"))
      (jsOr (post.get? "headline") (post.get? "name"))
      (jsOptStr (optGet (post.get? "author") "name"))
      ((jsOptStr (post.get? "datePublished")).map jsDateToIso)
      (jsOptStr (optGet (post.get? "image") "url"))
  else none

/-- Branch 2: a `Blog` wrapper with a `blogPost` array. -/
def extractBlog (data : JsonVal) (baseUrl sourceId now : String) : List Post :=
  if isTypeStr data "Blog" then
    match data.get? "blogPost" with
    | some (.arr posts) => posts.filterMap (extractBlogItem baseUrl sourceId now)
    | _ => []
  else []

/-- One element of an `ItemList`'s `itemListElement` array. -/
def extractItemListItem (baseUrl sourceId now : String) (item : JsonVal) :
    Option Post :=
  let inner := item.get? "item"
  if optIsTypeStr inner "BlogPosting" || optIsTypeStr inner "Article" then
    mkStructuredPost baseUrl sourceId now
      (jsOr (optGet inner "url")
        (jsOr (optGet (optGet inner "mainEntityOfPage") "@id")
          (item.get? "url")))
      (jsOr (optGet inner "headline")
        (jsOr (optGet inner "name") (item.get? "name")))
      (jsOptStr (optGet (optGet inner "author") "name"))
      ((jsOptStr (optGet inner "datePublished")).map jsDateToIso)
      (jsOptStr (optGet (optGet inner "image") "url"))
  else none

/-- Branch 3: an `ItemList` wrapper with an `itemListElement` array. -/
def extractItemList (data : JsonVal) (baseUrl sourceId now : String) :
    List Post :=
  if isTypeStr data "ItemList" then
    match data.get? "itemListElement" with
    | some (.arr items) =>
        items.filterMap (extractItemListItem baseUrl sourceId now)
    | _ => []
  else []

/-- All posts pushed for a single parsed JSON-LD block: the three branch
`if`s run in sequence on the same block. -/
def extractPostsFromData (data : JsonVal) (baseUrl sourceId now : String) :
    List Post :=
  extractBlogPosting data baseUrl sourceId now
    ++ extractBlog data baseUrl sourceId now
    ++ extractItemList data baseUrl sourceId now

/-- `extractPostsFromStructuredData` (src/lib/custom-scrapers.ts lines
2676-2764): iterate over all parsed JSON-LD blocks. -/
def extractPostsFromStructuredData (structuredData : List JsonVal)
    (baseUrl sourceId now : String) : List Post :=
  structuredData.flatMap (fun d => extractPostsFromData d baseUrl sourceId now)

/-! ### Extracted post ids are time-independent functions of source id and
URL slug -/

theorem filterMap_map_congr {α β γ : Type} (f g : α → Option β) (h : β → γ)
    (hfg : ∀ a, (f a).map h = (g a).map h) (l : List α) :
    (l.filterMap f).map h = (l.filterMap g).map h := by
  induction l with
  | nil => rfl
  | cons a l ih =>
      have ha := hfg a
      cases hf : f a <;> cases hg : g a <;> rw [hf, hg] at ha <;>
        simp_all [List.filterMap_cons]

theorem toList_map_id_congr {o₁ o₂ : Option Post}
    (h : o₁.map (fun p => p.id) = o₂.map (fun p => p.id)) :
    o₁.toList.map (fun p => p.id) = o₂.toList.map (fun p => p.id) := by
  cases o₁ <;> cases o₂ <;> simp_all

theorem mkStructuredPost_map_id (baseUrl sourceId t₁ t₂ : String)
    (urlVal titleVal : Option JsonVal)
    (author publishedAt imageUrl : Option String) :
    (mkStructuredPost baseUrl sourceId t₁ urlVal titleVal author publishedAt
        imageUrl).map (fun p => p.id)
      = (mkStructuredPost baseUrl sourceId t₂ urlVal titleVal author
          publishedAt imageUrl).map (fun p => p.id) := by
  unfold mkStructuredPost
  repeat' split <;> try simp

theorem extractBlogPosting_map_id (data : JsonVal) (b s t₁ t₂ : String) :
    (extractBlogPosting data b s t₁).map (fun p => p.id)
      = (extractBlogPosting data b s t₂).map (fun p => p.id) := by
  unfold extractBlogPosting
  split
  · split
    · exact toList_map_id_congr (mkStructuredPost_map_id b s t₁ t₂ _ _ _ _ _)
    · rfl
  · rfl

theorem extractBlogItem_map_id (post : JsonVal) (b s t₁ t₂ : String) :
    (extractBlogItem b s t₁ post).map (fun p => p.id)
      = (extractBlogItem b s t₂ post).map (fun p => p.id) := by
  unfold extractBlogItem
  split
  · exact mkStructuredPost_map_id b s t₁ t₂ _ _ _ _ _
  · rfl

theorem extractBlog_map_id (data : JsonVal) (b s t₁ t₂ : String) :
    (extractBlog data b s t₁).map (fun p => p.id)
      = (extractBlog data b s t₂).map (fun p => p.id) := by
  unfold extractBlog
  split
  · split
    · exact filterMap_map_congr _ _ _
        (fun post => extractBlogItem_map_id post b s t₁ t₂) _
    · rfl
  · rfl

theorem extractItemListItem_map_id (item : JsonVal) (b s t₁ t₂ : String) :
    (extractItemListItem b s t₁ item).map (fun p => p.id)
      = (extractItemListItem b s t₂ item).map (fun p => p.id) := by
  unfold extractItemListItem
  dsimp only
  split
  · exact mkStructuredPost_map_id b s t₁ t₂ _ _ _ _ _
  · rfl

theorem extractItemList_map_id (data : JsonVal) (b s t₁ t₂ : String) :
    (extractItemList data b s t₁).map (fun p => p.id)
      = (extractItemList data b s t₂).map (fun p => p.id) := by
  unfold extractItemList
  split
  · split
    · exact filterMap_map_congr _ _ _
        (fun item => extractItemListItem_map_id item b s t₁ t₂) _
    · rfl
  · rfl

theorem extractPostsFromData_map_id (data : JsonVal) (b s t₁ t₂ : String) :
    (extractPostsFromData data b s t₁).map (fun p => p.id)
      = (extractPostsFromData data b s t₂).map (fun p => p.id) := by
  simp only [extractPostsFromData, List.map_append]
  rw [extractBlogPosting_map_id data b s t₁ t₂, extractBlog_map_id data b s t₁ t₂,
    extractItemList_map_id data b s t₁ t₂]

theorem extractPostsFromStructuredData_map_id (sds : List JsonVal)
    (b s t₁ t₂ : String) :
    (extractPostsFromStructuredData sds b s t₁).map (fun p => p.id)
      = (extractPostsFromStructuredData sds b s t₂).map (fun p => p.id) := by
  induction sds with
  | nil => rfl
  | cons d rest ih =>
      simp only [extractPostsFromStructuredData, List.flatMap_cons,
        List.map_append] at ih ⊢
      rw [extractPostsFromData_map_id d b s t₁ t₂, ih]

theorem mkStructuredPost_id (baseUrl sourceId now : String)
    (urlVal titleVal : Option JsonVal)
    (author publishedAt imageUrl : Option String) (p : Post)
    (h : mkStructuredPost baseUrl sourceId now urlVal titleVal author
        publishedAt imageUrl = some p) :
    p.id = structuredPostId sourceId p.url := by
  unfold mkStructuredPost at h
  split at h
  · split at h
    · exact absurd h (by simp)
    · split at h
      · exact absurd h (by simp)
      · rename_i absoluteUrl heq urlPath heqPath
        cases h
        simp [structuredPostId, heqPath]
  · exact absurd h (by simp)

theorem extractBlogItem_id (post : JsonVal) (b s t : String) (p : Post)
    (h : extractBlogItem b s t post = some p) :
    p.id = structuredPostId s p.url := by
  unfold extractBlogItem at h
  split at h
  · exact mkStructuredPost_id b s t _ _ _ _ _ p h
  · exact absurd h (by simp)

theorem extractItemListItem_id (item : JsonVal) (b s t : String) (p : Post)
    (h : extractItemListItem b s t item = some p) :
    p.id = structuredPostId s p.url := by
  unfold extractItemListItem at h
  dsimp only at h
  split at h
  · exact mkStructuredPost_id b s t _ _ _ _ _ p h
  · exact absurd h (by simp)

theorem extractPostsFromData_id (data : JsonVal) (b s t : String) (p : Post)
    (hp : p ∈ extractPostsFromData data b s t) :
    p.id = structuredPostId s p.url := by
  unfold extractPostsFromData at hp
  rcases List.mem_append.mp hp with hp₁₂ | hp₃
  · rcases List.mem_append.mp hp₁₂ with hp₁ | hp₂
    · unfold extractBlogPosting at hp₁
      split at hp₁
      · split at hp₁
        · rw [Option.mem_toList] at hp₁
          exact mkStructuredPost_id b s t _ _ _ _ _ p hp₁
        · exact absurd hp₁ (by simp)
      · exact absurd hp₁ (by simp)
    · unfold extractBlog at hp₂
      split at hp₂
      · split at hp₂
        · obtain ⟨post, _, hpost⟩ := List.mem_filterMap.mp hp₂
          exact extractBlogItem_id post b s t p hpost
        · exact absurd hp₂ (by simp)
      · exact absurd hp₂ (by simp)
  · unfold extractItemList at hp₃
    split at hp₃
    · split at hp₃
      · obtain ⟨item, _, hitem⟩ := List.mem_filterMap.mp hp₃
        exact extractItemListItem_id item b s t p hitem
      · exact absurd hp₃ (by simp)
    · exact absurd hp₃ (by simp)

theorem processRssItem_map_id (s t₁ t₂ : String) (item : RssItem) :
    (processRssItem s t₁ item).map (fun p => p.id)
      = (processRssItem s t₂ item).map (fun p => p.id) := by
  unfold processRssItem
  cases item.link with
  | none => rfl
  | some link =>
      dsimp only
      split <;> rfl

theorem processRssItem_id (s t : String) (item : RssItem) (p : Post)
    (h : processRssItem s t item = some p) : p.id = rssPostId s p.url := by
  unfold processRssItem at h
  cases hl : item.link with
  | none => rw [hl] at h; exact absurd h (by simp)
  | some link =>
      rw [hl] at h
      dsimp only at h
      split at h
      · exact absurd h (by simp)
      · cases h
        rfl

/-- **C8**: the id of an extracted post is a deterministic function of the
source id and the URL's path slug only — both the RSS pipeline and the
JSON-LD pipeline produce identical id lists when re-run at any two fetch
times, and every produced id equals the slug-derived id of the post's own
URL. -/
theorem extractedPostId_deterministic :
    (∀ (feed : RssFeed) (sourceId t₁ t₂ : String),
        (processRssFeed feed sourceId t₁).map (fun p => p.id)
          = (processRssFeed feed sourceId t₂).map (fun p => p.id))
    ∧ (∀ (feed : RssFeed) (sourceId t : String),
        (processRssFeed feed sourceId t).map (fun p => p.id)
          = (processRssFeed feed sourceId t).map
              (fun p => rssPostId sourceId p.url))
    ∧ (∀ (sds : List JsonVal) (baseUrl sourceId t₁ t₂ : String),
        (extractPostsFromStructuredData sds baseUrl sourceId t₁).map
            (fun p => p.id)
          = (extractPostsFromStructuredData sds baseUrl sourceId t₂).map
              (fun p => p.id))
    ∧ (∀ (sds : List JsonVal) (baseUrl sourceId t : String),
        (extractPostsFromStructuredData sds baseUrl sourceId t).map
            (fun p => p.id)
          = (extractPostsFromStructuredData sds baseUrl sourceId t).map
              (fun p => structuredPostId sourceId p.url)) := by
  refine ⟨?_, ?_, ?_, ?_⟩
  · intro feed sourceId t₁ t₂
    exact filterMap_map_congr _ _ _
      (fun item => processRssItem_map_id sourceId t₁ t₂ item) _
  · intro feed sourceId t
    apply List.map_congr_left
    intro p hp
    obtain ⟨item, _, hitem⟩ := List.mem_filterMap.mp hp
    exact processRssItem_id sourceId t item p hitem
  · intro sds baseUrl sourceId t₁ t₂
    exact extractPostsFromStructuredData_map_id sds baseUrl sourceId t₁ t₂
  · intro sds baseUrl sourceId t
    apply List.map_congr_left
    intro p hp
    obtain ⟨d, _, hd⟩ := List.mem_flatMap.mp hp
    exact extractPostsFromData_id d baseUrl sourceId t p hd

/-! ## Fetch primitive: `retry` and `fetchUrl`
(src/lib/custom-scrapers.ts lines 2537-2615)

The network is modelled by an oracle `env : Nat → FetchOutcome` giving the
outcome of the n-th underlying `fetch()` call; the functions thread the
call counter so theorems can count exactly how many `fetch()` calls were
issued. `tlsErr` stands for a rejection whose message matches the
`certificate`/`SSL`/`TLS`/`UNABLE_TO_VERIFY` test, `netErr` for any other
rejection, `httpErr` for a response with `!response.ok`. -/

inductive FetchOutcome where
  | ok (body : String)
  | httpErr (status : Nat)
  | netErr
  | tlsErr
  deriving Repr, DecidableEq

inductive FetchError where
  | http
  | net
  | sslFailed
  | noAttempts
  deriving Repr, DecidableEq

/-- `MAX_RETRIES = 3` (src/lib/custom-scrapers.ts line 2532). -/
def MAX_RETRIES : Nat := 3

/-- One attempt of the closure passed to `retry` by `fetchUrl`: a full
fetch with browser-like headers; on a TLS/certificate failure, one more
fetch with the reduced header set, any failure of which becomes the
`SSL certificate verification failed` error. Returns the result and the
new fetch-call counter. -/
def fetchAttempt (env : Nat → FetchOutcome) (k : Nat) :
    Except FetchError String × Nat :=
  match env k with
  | .ok body => (.ok body, k + 1)
  | .httpErr _ => (.error .http, k + 1)
  | .netErr => (.error .net, k + 1)
  | .tlsErr =>
      match env (k + 1) with
      | .ok body => (.ok body, k + 2)
      | _ => (.error .sslFailed, k + 2)

/-- `retry` (src/lib/custom-scrapers.ts lines 2537-2556): run the function
up to `maxRetries` times, rethrowing the last error; the backoff sleep has
no observable effect in this model. -/
def retry (env : Nat → FetchOutcome) :
    Nat → Nat → Except FetchError String × Nat
  | 0, k => (.error .noAttempts, k)
  | n + 1, k =>
      match fetchAttempt env k with
      | (.ok body, k₁) => (.ok body, k₁)
      | (.error e, k₁) => if n = 0 then (.error e, k₁) else retry env n k₁

/-- `fetchUrl` (src/lib/custom-scrapers.ts lines 2562-2615): the attempt
closure wrapped in `retry` with `MAX_RETRIES` by default. -/
def fetchUrl (env : Nat → FetchOutcome) (retries : Nat := MAX_RETRIES) :
    Except FetchError String × Nat :=
  retry env retries 0

/-- **C6**: when every underlying `fetch()` call fails with a non-TLS
network error, `fetchUrl` throws after exactly `MAX_RETRIES = 3` attempts
(the final fetch-call counter is exactly 3 — not more, not fewer); and
within one attempt a TLS/certificate failure triggers exactly one further
fetch with the reduced header set before the attempt fails. -/
theorem fetchUrl_retry_count :
    (∀ env : Nat → FetchOutcome, (∀ n, env n = .netErr) →
        fetchUrl env MAX_RETRIES = (.error .net, 3))
    ∧ (∀ (env : Nat → FetchOutcome) (k : Nat), env k = .tlsErr →
        (∀ body, env (k + 1) ≠ .ok body) →
        fetchAttempt env k = (.error .sslFailed, k + 2)) := by
  constructor
  · intro env h
    have henv : env = fun _ => FetchOutcome.netErr := funext h
    subst henv
    rfl
  · intro env k hk hk1
    unfold fetchAttempt
    rw [hk]
    cases h1 : env (k + 1) with
    | ok body => exact absurd h1 (hk1 body)
    | httpErr status => rfl
    | netErr => rfl
    | tlsErr => rfl

/-- Witness for `fetchUrl_retry_count`: an oracle failing with a network
error on every call, and one failing with TLS errors. -/
theorem fetchUrl_retry_count_witness :
    fetchUrl (fun _ => FetchOutcome.netErr) MAX_RETRIES
        = (.error .net, 3)
    ∧ fetchAttempt (fun _ => FetchOutcome.tlsErr) 0
        = (.error .sslFailed, 2) :=
  ⟨fetchUrl_retry_count.1 (fun _ => FetchOutcome.netErr) (fun _ => rfl),
   fetchUrl_retry_count.2 (fun _ => FetchOutcome.tlsErr) 0 rfl
     (fun _ h => FetchOutcome.noConfusion h)⟩

/-! ## Dispatcher: strategy resolution of `fetchPostsFromSource`
(src/lib/custom-scrapers.ts lines 3833-4010) -/

/-- A resolved fetch strategy: a named per-source custom adapter, the
generic RSS path (`fetchFromRss` on the declared feed URL), or generic HTML
scraping (`fetchFromHtml` on the listing URL with the homepage as base). -/
inductive Strategy where
  | custom (name : String)
  | rss (feedUrl : String)
  | htmlScrape (blogListUrl homepage : String)
  deriving Repr, DecidableEq

inductive ScrapeError where
  | noFetchStrategy (sourceId : String)
  deriving Repr, DecidableEq

instance : DecidableEq (Except ScrapeError Strategy) := fun x y =>
  match x, y with
  | .ok a, .ok b =>
      if h : a = b then isTrue (by rw [h]) else isFalse (by simp [h])
  | .error a, .error b =>
      if h : a = b then isTrue (by rw [h]) else isFalse (by simp [h])
  | .ok _, .error _ => isFalse (by simp)
  | .error _, .ok _ => isFalse (by simp)

/-- The custom-adapter prefix of `fetchPostsFromSource`'s `if` chain, in
source order. Each branch returns immediately, so the chain prefix is
equivalent to this lookup; the `amazon-science` and `deepmind` branches
additionally require a truthy `source.rss`. -/
def customAdapterFor (s : Source) : Option String :=
  if s.id = "anthropic" then some "anthropic"
  else if s.id = "apple-ml" then some "apple-ml"
  else if s.id = "amazon-science" ∧ optTruthyStr s.rss = true then
    some "amazon-science"
  else if s.id = "deepmind" ∧ optTruthyStr s.rss = true then some "deepmind"
  else if s.id = "aws-architecture" then some "aws-architecture"
  else if s.id = "cloudflare" then some "cloudflare"
  else if s.id = "meta-engineering" then some "meta-engineering"
  else if s.id = "google-research" then some "google-research"
  else if s.id = "huggingface" then some "huggingface"
  else if s.id = "linkedin-engineering" then some "linkedin-engineering"
  else if s.id = "microsoft-research" then some "microsoft-research"
  else if s.id = "netflix-research" then some "netflix-research"
  else if s.id = "nvidia-developer" then some "nvidia-developer"
  else if s.id = "openai" then some "openai"
  else if s.id = "meta-research" then some "meta-research"
  else if s.id = "spotify-engineering" then some "spotify-engineering"
  else if s.id = "stripe-engineering" then some "stripe-engineering"
  else if s.id = "uber-engineering" then some "uber-engineering"
  else none

/-- The generic tail of the chain: `if (source.allowScrape &&
source.blogListUrl)` use HTML scraping, else throw `No RSS feed or
scrapeable URL for source ...`. -/
def htmlFallback (s : Source) : Except ScrapeError Strategy :=
  if s.allowScrape = true ∧ optTruthyStr s.blogListUrl = true then
    .ok (.htmlScrape (s.blogListUrl.getD "") s.homepage)
  else .error (.noFetchStrategy s.id)

/-- Full strategy resolution of `fetchPostsFromSource`: custom adapter
first, else RSS when `source.rss` is truthy, else the HTML fallback. -/
def resolveStrategy (s : Source) : Except ScrapeError Strategy :=
  match customAdapterFor s with
  | some name => .ok (.custom name)
  | none =>
      if optTruthyStr s.rss = true then .ok (.rss (s.rss.getD ""))
      else htmlFallback s

/-- **C5 counterexample**: a source whose id has a custom adapter resolves
to that adapter even with no `rss` and no `blogListUrl` — the claim's
parenthetical "a source with no rss and no blogListUrl rejects" fails for
such ids (`fetchPostsFromSource` dispatches on the id before ever looking
at `rss`/`blogListUrl`). -/
theorem noFetchStrategy_counterexample :
    (Source.mk "anthropic" "Anthropic" "https://www.anthropic.com" none none
        false).rss = none
    ∧ (Source.mk "anthropic" "Anthropic" "https://www.anthropic.com" none
        none false).blogListUrl = none
    ∧ resolveStrategy
        (Source.mk "anthropic" "Anthropic" "https://www.anthropic.com" none
          none false)
        = .ok (.custom "anthropic") :=
  ⟨rfl, rfl, rfl⟩

/-- **C5** (amended): `fetchPostsFromSource` resolves the strategy in the
order custom adapter, then RSS (when the source declares a truthy feed
URL), then generic HTML scraping (when the source allows scraping and
declares a truthy listing URL), and rejects with the no-fetch-strategy
error exactly when none of the three applies; in particular a source with
no custom adapter for its id, no `rss` and no `blogListUrl` rejects. -/
theorem resolveStrategy_spec (s : Source) :
    (resolveStrategy s = .error (.noFetchStrategy s.id)
      ↔ customAdapterFor s = none ∧ optTruthyStr s.rss = false
          ∧ ¬(s.allowScrape = true ∧ optTruthyStr s.blogListUrl = true))
    ∧ (∀ n, customAdapterFor s = some n →
        resolveStrategy s = .ok (.custom n))
    ∧ (customAdapterFor s = none → optTruthyStr s.rss = true →
        resolveStrategy s = .ok (.rss (s.rss.getD "")))
    ∧ (customAdapterFor s = none → optTruthyStr s.rss = false →
        s.allowScrape = true → optTruthyStr s.blogListUrl = true →
        resolveStrategy s = .ok (.htmlScrape (s.blogListUrl.getD "")
          s.homepage))
    ∧ (customAdapterFor s = none → s.rss = none → s.blogListUrl = none →
        resolveStrategy s = .error (.noFetchStrategy s.id)) := by
  refine ⟨?_, ?_, ?_, ?_, ?_⟩
  · cases hca : customAdapterFor s with
    | some name => simp [resolveStrategy, hca]
    | none =>
        by_cases hrss : optTruthyStr s.rss = true
        · simp [resolveStrategy, hca, hrss]
        · by_cases hhtml : s.allowScrape = true ∧ optTruthyStr s.blogListUrl = true
          · simp [resolveStrategy, htmlFallback, hca, hrss, hhtml]
          · simp only [resolveStrategy, htmlFallback, hca, if_neg hrss,
              if_neg hhtml]
            simp [hhtml]
            simpa using hrss
  · intro n hca
    simp [resolveStrategy, hca]
  · intro hca hrss
    simp [resolveStrategy, hca, hrss]
  · intro hca hrss hallow hblog
    simp [resolveStrategy, htmlFallback, hca, hrss, hallow, hblog]
  · intro hca hrss hblog
    simp [resolveStrategy, htmlFallback, hca, hrss, hblog, optTruthyStr]

/-- Witness for `resolveStrategy_spec`: the unit-test source with no rss
and no blogListUrl rejects with the no-fetch-strategy error, and an RSS
source resolves to the RSS strategy. -/
theorem resolveStrategy_spec_witness :
    resolveStrategy
        (Source.mk "test-source" "Test Source" "https://example.com" none
          none false)
        = .error (.noFetchStrategy "test-source")
    ∧ resolveStrategy
        (Source.mk "test-source" "Test Source" "https://example.com"
          (some "https://example.com/feed.xml") none false)
        = .ok (.rss "https://example.com/feed.xml") :=
  ⟨(resolveStrategy_spec _).2.2.2.2 (by decide) rfl rfl,
   (resolveStrategy_spec _).2.2.1 (by decide) (by decide)⟩

/-! ## Generic HTML scraping: the extraction/selection core of
`fetchFromHtml` (src/lib/custom-scrapers.ts lines 3440-3573)

The page content is abstracted as the outputs of the cheerio-level
helpers: the parse result of each `<script type="application/ld+json">`
block (`none` for invalid JSON, mirroring the skip in
`extractStructuredData`), the candidate post links found by
`extractPostLinksFromPage`, and the links found by `findPaginationLinks`.
The per-post detail fetch (`fetchUrl` + title/content/image/date
extraction) is abstracted as an oracle `detail : String → Option
DetailPage`, `none` meaning the fetch threw and the post is skipped. -/

/-- What the strategy-2 detail fetch of one linked post produces. -/
structure DetailPage where
  title : String
  content : String
  imageUrl : Option String := none
  publishedAt : Option String := none
  deriving Repr, DecidableEq

/-- A fetched listing page, abstracted at the cheerio boundary. -/
structure ListingPage where
  jsonLdBlocks : List (Option JsonVal)
  postLinks : List (String × String)
  paginationLinks : List String

/-- `extractStructuredData`: parse every JSON-LD block, silently skipping
blocks with invalid JSON. -/
def extractStructuredData (page : ListingPage) : List JsonVal :=
  page.jsonLdBlocks.filterMap (fun b => b)

/-- Strategy 2 of `fetchFromHtml`: take the first `maxPosts` candidate
links (`postLinks.slice(0, maxPosts - posts.length)` with `posts` empty at
that point) and fetch each linked page, skipping a link whose URL does not
parse or whose fetch throws; a successful fetch becomes a `Post` with the
slug-derived id, the extracted title/date/image and the first 5000
characters of the extracted text as `rawHtml`. -/
def fetchPostDetails (sourceId now : String) (maxPosts : Nat)
    (links : List (String × String)) (detail : String → Option DetailPage) :
    List Post :=
  (links.take maxPosts).filterMap (fun lk =>
    match urlPathname lk.1 with
    | none => none
    | some urlPath =>
        (detail lk.1).map (fun d =>
          { id := sourceId ++ "-" ++ slugOfPath urlPath
            sourceId := sourceId
            title := d.title
            url := lk.1
            publishedAt := d.publishedAt
            imageUrl := d.imageUrl
            rawHtml := some (strTake d.content 5000)
            fetchedAt := now }))

/-- The result record `{posts, hasMore, nextPageUrl, detectedPattern}`. -/
structure ScrapeResult where
  posts : List Post
  hasMore : Bool
  nextPageUrl : Option String := none
  detectedPattern : Option String := none
  deriving Repr, DecidableEq

/-- The pure core of `fetchFromHtml` after the listing page has been
fetched: structured data first, the HTML heuristic only when that yielded
zero posts, then `nextPageUrl = paginationLinks[0]` and
`hasMore = posts.length < maxPosts && (nextPageUrl !== undefined ||
page < 10)`. `detectedPattern` (the memoized pagination template) is
passed through. -/
def fetchFromHtmlCore (page : ListingPage)
    (detail : String → Option DetailPage) (baseUrl sourceId now : String)
    (pageNum maxPosts : Nat) (detectedPattern : Option String) :
    ScrapeResult :=
  let structuredData := extractStructuredData page
  let posts :=
    if structuredData.length > 0 then
      extractPostsFromStructuredData structuredData baseUrl sourceId now
    else []
  let posts :=
    if posts.length = 0 then
      fetchPostDetails sourceId now maxPosts page.postLinks detail
    else posts
  let nextPageUrl := page.paginationLinks.head?
  let hasMore :=
    decide (posts.length < maxPosts)
      && (nextPageUrl.isSome || decide (pageNum < 10))
  { posts := posts, hasMore := hasMore, nextPageUrl := nextPageUrl,
    detectedPattern := detectedPattern }

/-- **C4**: whenever the JSON-LD blocks of a page yield at least one valid
post, `fetchFromHtml` returns exactly those posts and the HTML-heuristic
strategy contributes nothing; the heuristic runs exactly when structured
data yielded zero posts, so the two strategies are never combined. -/
theorem structuredData_priority (page : ListingPage)
    (detail : String → Option DetailPage) (baseUrl sourceId now : String)
    (pageNum maxPosts : Nat) (pat : Option String) :
    (extractPostsFromStructuredData (extractStructuredData page) baseUrl
        sourceId now ≠ [] →
      (fetchFromHtmlCore page detail baseUrl sourceId now pageNum maxPosts
          pat).posts
        = extractPostsFromStructuredData (extractStructuredData page)
            baseUrl sourceId now)
    ∧ (extractPostsFromStructuredData (extractStructuredData page) baseUrl
        sourceId now = [] →
      (fetchFromHtmlCore page detail baseUrl sourceId now pageNum maxPosts
          pat).posts
        = fetchPostDetails sourceId now maxPosts page.postLinks detail) := by
  constructor
  · intro hne
    have hsd : extractStructuredData page ≠ [] := by
      intro hnil
      rw [hnil] at hne
      exact hne rfl
    have hlen : (extractStructuredData page).length > 0 :=
      List.length_pos.mpr hsd
    have hlz :
        ¬ (extractPostsFromStructuredData (extractStructuredData page)
            baseUrl sourceId now).length = 0 :=
      fun hcon => hne (List.length_eq_zero.mp hcon)
    unfold fetchFromHtmlCore
    dsimp only
    rw [if_pos hlen, if_neg hlz]
  · intro hz
    unfold fetchFromHtmlCore
    dsimp only
    by_cases hlen : (extractStructuredData page).length > 0
    · rw [if_pos hlen, hz]
      simp
    · rw [if_neg hlen]
      simp

/-- A JSON-LD block describing one `BlogPosting`. -/
def sampleJsonLd : JsonVal :=
  .obj [("@type", .str "BlogPosting"),
        ("url", .str "https://example.com/post1"),
        ("headline", .str "JSON-LD Post")]

/-- A page carrying both a valid JSON-LD block (plus one invalid block)
and an unrelated heuristic candidate link. -/
def samplePage : ListingPage :=
  { jsonLdBlocks := [some sampleJsonLd, none],
    postLinks := [("https://example.com/heuristic", "Heuristic Post")],
    paginationLinks := [] }

def sampleDetail : String → Option DetailPage :=
  fun _ => some { title := "Heuristic Post", content := "body" }

/-- Witness for `structuredData_priority`: on `samplePage` the JSON-LD
result wins outright; on the same page without JSON-LD the heuristic
strategy runs. -/
theorem structuredData_priority_witness :
    (fetchFromHtmlCore samplePage sampleDetail "https://example.com" "src"
        "t" 1 70 none).posts
      = extractPostsFromStructuredData (extractStructuredData samplePage)
          "https://example.com" "src" "t"
    ∧ (fetchFromHtmlCore
        (ListingPage.mk [] [("https://example.com/heuristic",
          "Heuristic Post")] [])
        sampleDetail "https://example.com" "src" "t" 1 70 none).posts
      = fetchPostDetails "src" "t" 70
          [("https://example.com/heuristic", "Heuristic Post")]
          sampleDetail :=
  ⟨(structuredData_priority samplePage sampleDetail "https://example.com"
      "src" "t" 1 70 none).1 (by decide),
   (structuredData_priority
      (ListingPage.mk [] [("https://example.com/heuristic",
        "Heuristic Post")] [])
      sampleDetail "https://example.com" "src" "t" 1 70 none).2 (by decide)⟩

/-- **C9 counterexample**: a page-2 fetch of a false pagination pattern —
the page parses but yields zero posts and has no pagination links — returns
`hasMore = true`, not `false`: `hasMore = posts.length < maxPosts &&
(nextPageUrl !== undefined || page < 10)` is optimistic below page 10. -/
theorem zeroPosts_hasMore_counterexample :
    (fetchFromHtmlCore (ListingPage.mk [] [] []) (fun _ => none)
        "https://example.com" "src" "t" 2 70 none).posts = []
    ∧ (fetchFromHtmlCore (ListingPage.mk [] [] []) (fun _ => none)
        "https://example.com" "src" "t" 2 70 none).hasMore = true := by
  decide

/-- **C9** (amended): a generic HTML page fetch that extracts zero posts
still returns a normal result (the extraction/selection core is total —
no crash), whose `hasMore` equals `0 < maxPosts && (a next-page link was
found || page < 10)`; in particular it is `false` whenever no next-page
link exists and the page number is at least 10, but it is `true` for a
zero-post page below page 10. -/
theorem zeroPosts_soft_failure (page : ListingPage)
    (detail : String → Option DetailPage) (baseUrl sourceId now : String)
    (pageNum maxPosts : Nat) (pat : Option String)
    (hz : (fetchFromHtmlCore page detail baseUrl sourceId now pageNum
        maxPosts pat).posts = []) :
    (fetchFromHtmlCore page detail baseUrl sourceId now pageNum maxPosts
        pat).hasMore
      = (decide (0 < maxPosts)
          && ((fetchFromHtmlCore page detail baseUrl sourceId now pageNum
                maxPosts pat).nextPageUrl.isSome
              || decide (pageNum < 10))) := by
  unfold fetchFromHtmlCore at hz ⊢
  dsimp only at hz ⊢
  rw [hz]
  rfl

/-- Witness for `zeroPosts_soft_failure`: an empty page at page 12 with no
pagination links yields `hasMore = false`. -/
theorem zeroPosts_soft_failure_witness :
    (fetchFromHtmlCore (ListingPage.mk [] [] []) (fun _ => none)
        "https://example.com" "src" "t" 12 70 none).hasMore = false :=
  (zeroPosts_soft_failure (ListingPage.mk [] [] []) (fun _ => none)
      "https://example.com" "src" "t" 12 70 none (by decide)).trans
    (by decide)
